import Mathlib

/-!
Verification of the process supervision core of `bot.py` (a multi-tenant
script hosting bot).  Python strings are embedded as `List Char`, the JSON
ownership store as an association list, the in-memory process registry as a
function to `Option`, and the filesystem as a function from paths to optional
contents.  Machine-level concerns (actual OS processes, real time) appear as
explicit oracle inputs to the embedded functions.
-/

namespace Genn

/-! ## Identifier scheme (bot.py lines 61-71) -/

/-- Embeds `tid.startswith("u")`. -/
def startsWithU : List Char → Bool
  | 'u' :: _ => true
  | _ => false

/-- Embeds `"|" in tid`. -/
def hasPipe (tid : List Char) : Bool := tid.any (fun c => c = '|')

/-- Embeds `tid.count("|")` (single-character pattern, so occurrence count
equals character count). -/
def pipeCount (tid : List Char) : Nat := tid.countP (fun c => c = '|')

/-- Embeds `tid.split("|", 1)[0][1:]`: the characters strictly between the
leading character and the first pipe (or all but the leading character when
no pipe occurs). -/
def digitsPart (tid : List Char) : List Char :=
  (tid.takeWhile (fun c => c ≠ '|')).drop 1

/-- Embeds `is_user_file_id` (bot.py 61-68).  Python `str.isdigit` is modelled
as: nonempty and every character a decimal digit. -/
def is_user_file_id (tid : List Char) : Bool :=
  startsWithU tid && hasPipe tid && (pipeCount tid == 1)
    && (!(digitsPart tid).isEmpty && (digitsPart tid).all Char.isDigit)

/-- Embeds `is_repo_id` (bot.py 70-71). -/
def is_repo_id (tid : List Char) : Bool :=
  hasPipe tid && !is_user_file_id tid

/-- The three identifier kinds of the spec. -/
inductive IdKind
  | userFile
  | repoFile
  | legacy
deriving DecidableEq

/-- Classification of an identifier, as the code performs it via the two
predicates: user-file wins, then repo-file, any other string is legacy. -/
def classify (tid : List Char) : IdKind :=
  if is_user_file_id tid then .userFile
  else if is_repo_id tid then .repoFile
  else .legacy

/-! ## Log file naming (bot.py 278, 302, 310) -/

/-- Embeds `tid.replace("|", "_")` (single-character pattern, hence a
character-wise substitution). -/
def replacePipe (tid : List Char) : List Char :=
  tid.map (fun c => if c = '|' then '_' else c)

/-- Embeds the derived log file name `f"{tid.replace('|','_')}.log"`. -/
def logName (tid : List Char) : List Char :=
  replacePipe tid ++ ".log".toList

/-- Embeds `os.path.join` for the relevant case of a non-absolute second
component; an absolute second component discards the first, as in Python. -/
def osJoin (a b : List Char) : List Char :=
  if b.head? = some '/' then b else a ++ "/".toList ++ b

/-- Embeds `os.path.join(UPLOAD_DIR, f"{tid.replace('|','_')}.log")` with
`UPLOAD_DIR = "scripts"`. -/
def log_path (tid : List Char) : List Char :=
  osJoin "scripts".toList (logName tid)

/-! ## Helper lemmas for the identifier scheme -/

theorem hasPipe_iff (tid : List Char) : hasPipe tid = true ↔ 0 < pipeCount tid := by
  unfold hasPipe pipeCount
  rw [List.any_eq_true, List.countP_pos_iff]

theorem hasPipe_false_iff (tid : List Char) : hasPipe tid = false ↔ pipeCount tid = 0 := by
  constructor
  · intro h
    by_contra hne
    have : 0 < pipeCount tid := Nat.pos_of_ne_zero hne
    rw [← hasPipe_iff] at this
    simp [h] at this
  · intro h
    by_contra hne
    have : hasPipe tid = true := by
      cases hh : hasPipe tid
      · exact absurd hh hne
      · rfl
    rw [hasPipe_iff, h] at this
    exact absurd this (by omega)

theorem is_user_file_id_count (tid : List Char) (h : is_user_file_id tid = true) :
    pipeCount tid = 1 := by
  unfold is_user_file_id at h
  simp only [Bool.and_eq_true, beq_iff_eq] at h
  exact h.1.2

/-- Claim C2 (counterexample): an identifier with two pipe characters is
classified repo-file by the code, not legacy as the claim states. -/
theorem classify_multi_pipe_cex :
    pipeCount "a|b|c".toList = 2 ∧
    classify "a|b|c".toList = .repoFile ∧
    classify "a|b|c".toList ≠ .legacy := by
  refine ⟨by decide, by decide, by decide⟩

/-- Claim C2 (amended): classification is total and deterministic (it is a
function); user-file holds exactly when the code predicate does, which is
exactly the spec shape (leading `u`, nonempty all-digit segment before the
pipe, exactly one pipe); an identifier with two or more pipes is repo-file,
not legacy; legacy holds exactly for pipe-free identifiers. -/
theorem classify_amended (tid : List Char) :
    (is_user_file_id tid = true ↔
      (startsWithU tid = true ∧ pipeCount tid = 1 ∧
        digitsPart tid ≠ [] ∧ ∀ c ∈ digitsPart tid, c.isDigit)) ∧
    (2 ≤ pipeCount tid → classify tid = .repoFile) ∧
    (classify tid = .legacy ↔ pipeCount tid = 0) := by
  refine ⟨?_, ?_, ?_⟩
  · unfold is_user_file_id
    simp only [Bool.and_eq_true, beq_iff_eq, Bool.not_eq_true', List.isEmpty_eq_false,
      List.all_eq_true]
    constructor
    · rintro ⟨⟨⟨h1, _⟩, h3⟩, h4, h5⟩
      exact ⟨h1, h3, h4, h5⟩
    · rintro ⟨h1, h3, h4, h5⟩
      have hp : hasPipe tid = true := by
        rw [hasPipe_iff, h3]; omega
      exact ⟨⟨⟨h1, hp⟩, h3⟩, h4, h5⟩
  · intro h2
    have hu : is_user_file_id tid = false := by
      cases hh : is_user_file_id tid
      · rfl
      · have := is_user_file_id_count tid hh
        omega
    have hp : hasPipe tid = true := by
      rw [hasPipe_iff]; omega
    unfold classify is_repo_id
    rw [hu]
    simp [hp]
  · unfold classify
    constructor
    · intro h
      by_contra hne
      have hp : hasPipe tid = true := by
        rw [hasPipe_iff]
        omega
      by_cases hu : is_user_file_id tid = true
      · rw [if_pos hu] at h
        exact absurd h (by decide)
      · have hu' : is_user_file_id tid = false := by
          cases hh : is_user_file_id tid
          · rfl
          · exact absurd hh hu
        have hr : is_repo_id tid = true := by
          unfold is_repo_id
          rw [hp, hu']
          rfl
        rw [if_neg (by simp [hu']), if_pos hr] at h
        exact absurd h (by decide)
    · intro h
      have hp : hasPipe tid = false := (hasPipe_false_iff tid).mpr h
      have hu : is_user_file_id tid = false := by
        unfold is_user_file_id
        rw [hp]
        simp
      have hr : is_repo_id tid = false := by
        unfold is_repo_id
        rw [hp]
        rfl
      rw [if_neg (by simp [hu]), if_neg (by simp [hr])]

/-- Claim C2 (witness for the amended theorem): concrete classifications
obtained through the amended characterization — a double-pipe identifier is
repo-file, a pipe-free identifier is legacy. -/
theorem classify_amended_witness :
    classify "xx|y|z".toList = .repoFile ∧ classify "plain".toList = .legacy :=
  ⟨(classify_amended "xx|y|z".toList).2.1 (by decide),
   (classify_amended "plain".toList).2.2.mpr (by decide)⟩

/-- Claim C3 (counterexample): for the repo-file identifier `repo|a/b.py` the
derived log name still contains a path separator, so the log path is not a
single filesystem entry directly inside the scripts directory. -/
theorem log_name_separator_cex :
    is_repo_id "repo|a/b.py".toList = true ∧
    (logName "repo|a/b.py".toList).countP (fun c => c = '/') = 1 ∧
    log_path "repo|a/b.py".toList = "scripts/repo_a/b.py.log".toList := by
  refine ⟨by decide, by decide, by decide⟩

/-- Claim C3 (amended): the derived log name is deterministic (a pure function
of the identifier) and replaces every pipe character by an underscore, but
path separator characters are preserved unchanged, so an identifier whose
relative path contains a slash yields a log path with subdirectory
components. -/
theorem log_name_amended (tid : List Char) :
    (logName tid).countP (fun c => c = '|') = 0 ∧
    (logName tid).countP (fun c => c = '/') = tid.countP (fun c => c = '/') := by
  unfold logName replacePipe
  constructor
  · rw [List.countP_append, List.countP_map]
    have h1 : ((fun c => decide (c = '|')) ∘ fun c => if c = '|' then '_' else c)
        = fun _ => false := by
      funext c
      by_cases hc : c = '|'
      · simp [hc]
      · simp [hc]
    rw [h1]
    simp [List.countP_eq_zero]
  · rw [List.countP_append, List.countP_map]
    have h1 : ((fun c => decide (c = '/')) ∘ fun c => if c = '|' then '_' else c)
        = fun c => decide (c = '/') := by
      funext c
      by_cases hc : c = '|'
      · simp [hc]
      · simp [hc]
    rw [h1]
    have h2 : (".log".toList).countP (fun c => c = '/') = 0 := by decide
    rw [h2, Nat.add_zero]

/-! ## Ownership store (bot.py 115-142) -/

/-- An ownership record as stored in `ownership.json`; every field is a JSON
dictionary entry that may be absent, hence each is an `Option`.  Fields not
read by any embedded operation (`type`, `created_at`) are omitted. -/
structure OwnRecord where
  owner : Option Int
  key : Option (List Char)
  entry : Option (List Char)
  last_run : Option Bool
deriving DecidableEq

/-- The ownership store: an association list in file order (Python dicts keep
insertion order); real stores have pairwise distinct keys. -/
abbrev OwnStore := List (List Char × OwnRecord)

/-- Embeds `load_ownership().get(tid)`. -/
def lookupOwn (own : OwnStore) (tid : List Char) : Option OwnRecord :=
  (own.find? (fun p => p.1 = tid)).map (·.2)

/-- Embeds `get_app_key` (bot.py 132-133). -/
def get_app_key (own : OwnStore) (tid : List Char) : Option (List Char) :=
  (lookupOwn own tid).bind (·.key)

/-- Embeds `get_entry` (bot.py 135-136). -/
def get_entry (own : OwnStore) (tid : List Char) : Option (List Char) :=
  (lookupOwn own tid).bind (·.entry)

/-- Embeds `data[tid]["last_run"] = bool(value)` on a single record. -/
def setLastRunRec (v : Bool) (r : OwnRecord) : OwnRecord :=
  { r with last_run := some v }

/-- Embeds `set_last_run` (bot.py 138-142): update the record only when the
identifier is present, otherwise leave the store untouched. -/
def set_last_run (own : OwnStore) (tid : List Char) (v : Bool) : OwnStore :=
  if (lookupOwn own tid).isSome then
    own.map (fun p => if p.1 = tid then (p.1, setLastRunRec v p.2) else p)
  else own

/-- Embeds the entry-point persistence step of `restart_process_background`
(bot.py 269-273): `if tid in data: data[tid]["entry"] = chosen`. -/
def set_entry_store (own : OwnStore) (tid : List Char) (e : Option (List Char)) : OwnStore :=
  if (lookupOwn own tid).isSome then
    own.map (fun p => if p.1 = tid then (p.1, { p.2 with entry := e }) else p)
  else own

theorem lookup_map_modify (own : OwnStore) (tid : List Char) (g : OwnRecord → OwnRecord) :
    lookupOwn (own.map (fun p => if p.1 = tid then (p.1, g p.2) else p)) tid
      = (lookupOwn own tid).map g := by
  induction own with
  | nil => rfl
  | cons p own ih =>
    unfold lookupOwn at ih ⊢
    simp only [List.map_cons, List.find?_cons]
    by_cases hp : p.1 = tid
    · rw [if_pos hp]
      have h1 : decide ((p.1, g p.2).1 = tid) = true := decide_eq_true hp
      rw [h1]
      rfl
    · rw [if_neg hp]
      have h2 : decide (p.1 = tid) = false := decide_eq_false hp
      rw [h2]
      exact ih

theorem lookup_set_last_run (own : OwnStore) (tid : List Char) (v : Bool) :
    lookupOwn (set_last_run own tid v) tid = (lookupOwn own tid).map (setLastRunRec v) := by
  unfold set_last_run
  by_cases h : (lookupOwn own tid).isSome
  · rw [if_pos h, lookup_map_modify]
  · rw [if_neg h]
    cases hl : lookupOwn own tid
    · rfl
    · rw [hl] at h
      simp at h

/-! ## Filesystem and JSON persistence (bot.py 81-94) -/

/-- The filesystem: a map from paths to optional file contents. -/
abbrev FS := List Char → Option (List Char)

/-- Pointwise update of a path-indexed map. -/
def mapUpdate {β : Type} (f : List Char → Option β) (k : List Char) (v : Option β) :
    List Char → Option β :=
  fun q => if q = k then v else f q

/-- Embeds `path + ".tmp"` (bot.py 91). -/
def tmpName (path : List Char) : List Char := path ++ ".tmp".toList

/-- Embeds the final state of `_write_json`: the temp file has been renamed
onto the target path by `os.replace`, atomically installing the complete
serialized contents. -/
def write_json_final (fs : FS) (path content : List Char) : FS :=
  mapUpdate (mapUpdate fs (tmpName path) none) path (some content)

/-- Embeds `_write_json` (bot.py 90-94) as the sequence of filesystem states a
concurrent reader can observe while the mutation runs: first the temp file
grows character by character (k = 0 .. n characters written), then the single
atomic `os.replace` installs the full contents at the target path. -/
def write_json_states (fs : FS) (path content : List Char) : List FS :=
  ((List.range (content.length + 1)).map
      (fun k => mapUpdate fs (tmpName path) (some (content.take k))))
    ++ [write_json_final fs path content]

/-- Embeds `_read_json` (bot.py 81-88): missing file yields the default, a
file whose contents fail to parse yields the default, otherwise the parsed
value.  `parse` stands for `json.load`; a parse failure models the caught
exception. -/
def read_json {J : Type} (parse : List Char → Option J) (fs : FS) (path : List Char)
    (default : J) : J :=
  match fs path with
  | none => default
  | some s => (parse s).getD default

theorem tmpName_ne (path : List Char) : tmpName path ≠ path := by
  intro h
  have := congrArg List.length h
  unfold tmpName at this
  simp at this

/-- Claim C6: every ownership store mutation goes through `_write_json`
(bot.py 103, 111, 121, 127, 142, 273, 711), embedded here: a reader racing the
mutation observes at the backing path either the old contents or the complete
new contents, never a partial write (the partial states live only at the temp
path); after the final atomic replace the path holds the new contents; and
`_read_json` yields the caller default both for a missing backing file and
for unparseable contents. -/
theorem write_json_atomic_read (J : Type) (parse : List Char → Option J) (fs : FS)
    (path content : List Char) (default : J) :
    (∀ fs' ∈ write_json_states fs path content,
      fs' path = fs path ∨ fs' path = some content) ∧
    write_json_final fs path content path = some content ∧
    (fs path = none → read_json parse fs path default = default) ∧
    (∀ s, fs path = some s → parse s = none → read_json parse fs path default = default) := by
  refine ⟨?_, ?_, ?_, ?_⟩
  · intro fs' hmem
    unfold write_json_states at hmem
    rcases List.mem_append.mp hmem with h | h
    · rcases List.mem_map.mp h with ⟨k, _, rfl⟩
      left
      unfold mapUpdate
      rw [if_neg (Ne.symm (tmpName_ne path))]
    · rcases List.mem_singleton.mp h with rfl
      right
      unfold write_json_final mapUpdate
      rw [if_pos rfl]
  · unfold write_json_final mapUpdate
    rw [if_pos rfl]
  · intro h
    unfold read_json
    rw [h]
  · intro s hs hp
    unfold read_json
    rw [hs]
    simp [hp]

/-- Claim C6 (witness): the atomicity and defaulting facts evaluated on a
concrete one-character store content and the empty filesystem. -/
theorem write_json_atomic_read_witness :
    (write_json_final (fun _ => none) "ownership.json".toList "x".toList) "ownership.json".toList
        = some "x".toList ∧
    read_json (fun _ => none) (fun _ => none) "ownership.json".toList (0 : Nat) = 0 ∧
    ((write_json_final (fun _ => none) "ownership.json".toList "x".toList) "ownership.json".toList
        = (fun _ => (none : Option (List Char))) "ownership.json".toList ∨
      (write_json_final (fun _ => none) "ownership.json".toList "x".toList) "ownership.json".toList
        = some "x".toList) :=
  ⟨(write_json_atomic_read Nat (fun _ => none) (fun _ => none) "ownership.json".toList
      "x".toList 0).2.1,
   (write_json_atomic_read Nat (fun _ => none) (fun _ => none) "ownership.json".toList
      "x".toList 0).2.2.1 rfl,
   (write_json_atomic_read Nat (fun _ => none) (fun _ => none) "ownership.json".toList
      "x".toList 0).1 (write_json_final (fun _ => none) "ownership.json".toList "x".toList)
      (by unfold write_json_states
          exact List.mem_append_right _ (List.mem_singleton_self _))⟩

/-! ## Process registry (bot.py 50) -/

/-- The volatile per-process supervision state kept in `running_processes`.
The process handle itself is external; its liveness (`poll()`) is an oracle
input to the functions that consult it. -/
structure ProcMeta where
  lastAlert : Nat
  startedAt : Nat
deriving DecidableEq

/-- The in-memory process registry `running_processes`. -/
abbrev Registry := List Char → Option ProcMeta

/-- Embeds `tid in running_processes and running_processes[tid]["process"].poll() is None`:
a registry entry exists and the handle has not exited.  `pExited` is the
oracle for `poll() is not None`. -/
def aliveIn (reg : Registry) (pExited : List Char → Bool) (tid : List Char) : Bool :=
  match reg tid with
  | some _ => !pExited tid
  | none => false

/-! ## Status endpoint (bot.py 397-408) -/

/-- The four responses of the `/status` route, with their HTTP payloads:
`specifyScript` is ("Specify script", 400), `forbidden` is (the forbidden
banner, 403), `runningResp tid` is (tid is running, 200), `stoppedResp tid`
is (tid is stopped, 404). -/
inductive HttpResp
  | specifyScript
  | forbidden
  | runningResp (tid : List Char)
  | stoppedResp (tid : List Char)
deriving DecidableEq

/-- Embeds the `/status` route: empty script is a 400, then
`if not real_key or key != real_key` yields the forbidden response, else the
running state is reported. -/
def status (own : OwnStore) (reg : Registry) (pExited : List Char → Bool)
    (script key : List Char) : HttpResp :=
  if script = [] then .specifyScript
  else
    match get_app_key own script with
    | none => .forbidden
    | some rk =>
      if rk = [] ∨ key ≠ rk then .forbidden
      else if aliveIn reg pExited script then .runningResp script
      else .stoppedResp script

/-- Claim C5: a request naming an identifier with no ownership record and a
request naming an existing identifier with a non-matching key get the same
forbidden response, whatever the registry state, so identifier existence is
not observable through the key check. -/
theorem status_uniform_forbidden (own1 own2 : OwnStore) (reg1 reg2 : Registry)
    (pe1 pe2 : List Char → Bool) (script key1 key2 rk : List Char)
    (hs : script ≠ [])
    (h1 : get_app_key own1 script = none)
    (h2 : get_app_key own2 script = some rk) (h3 : key2 ≠ rk) :
    status own1 reg1 pe1 script key1 = .forbidden ∧
    status own2 reg2 pe2 script key2 = .forbidden ∧
    status own1 reg1 pe1 script key1 = status own2 reg2 pe2 script key2 := by
  have ha : status own1 reg1 pe1 script key1 = .forbidden := by
    unfold status
    rw [if_neg hs]
    simp only [h1]
  have hb : status own2 reg2 pe2 script key2 = .forbidden := by
    unfold status
    rw [if_neg hs]
    simp only [h2]
    rw [if_pos (Or.inr h3)]
  exact ⟨ha, hb, ha.trans hb.symm⟩

/-- A concrete one-record store used by the status witness. -/
def w5Own : OwnStore :=
  [("t".toList, { owner := some 1, key := some "k".toList, entry := none, last_run := none })]

/-- Claim C5 (witness): the uniform forbidden outcome on a concrete empty
store versus a concrete store holding a record with key `k`, queried with the
wrong key `z`. -/
theorem status_uniform_forbidden_witness :
    status [] (fun _ => none) (fun _ => false) "t".toList "z".toList = .forbidden ∧
    status w5Own (fun _ => none) (fun _ => false) "t".toList "z".toList = .forbidden ∧
    status [] (fun _ => none) (fun _ => false) "t".toList "z".toList
      = status w5Own (fun _ => none) (fun _ => false) "t".toList "z".toList :=
  status_uniform_forbidden [] w5Own (fun _ => none) (fun _ => none) (fun _ => false)
    (fun _ => false) "t".toList "z".toList "z".toList "k".toList (by decide) rfl rfl
    (by decide)

/-! ## Log tailing (bot.py 309-315) -/

/-- Embeds `max(50, min(lines, 800))`.  The requested count is a Python int
and may be negative, hence `Int`; the clamped value is a natural number. -/
def clampLines (lines : Int) : Nat := (max 50 (min lines 800)).toNat

/-- Embeds the slice `f.read().splitlines()[-max(50, min(lines, 800)):]` on
the list of log lines. -/
def tailData (ls : List (List Char)) (lines : Int) : List (List Char) :=
  ls.drop (ls.length - clampLines lines)

/-- Embeds `tail_log`: the log file is `none` when absent, otherwise the list
of its lines; returns the sentinel, the empty marker, or the joined tail. -/
def tail_log (file : Option (List (List Char))) (lines : Int) : List Char :=
  match file with
  | none => "No logs.".toList
  | some ls =>
    if (tailData ls lines).isEmpty then "(empty)".toList
    else List.intercalate "\n".toList (tailData ls lines)

theorem clampLines_bounds (lines : Int) : 50 ≤ clampLines lines ∧ clampLines lines ≤ 800 := by
  unfold clampLines
  rw [Int.max_def, Int.min_def]
  split <;> split <;> omega

/-- Claim C9: when the log has at least 800 lines, the returned tail is a
suffix of the log of between 50 and 800 lines, whatever count was requested;
a request for 10 lines is clamped up to exactly 50; a missing log file yields
the sentinel message. -/
theorem tail_log_clamp (ls : List (List Char)) (lines : Int) (h : 800 ≤ ls.length) :
    50 ≤ (tailData ls lines).length ∧ (tailData ls lines).length ≤ 800 ∧
    (tailData ls lines) <:+ ls ∧
    (tailData ls 10).length = 50 ∧
    tail_log none lines = "No logs.".toList := by
  have hb := clampLines_bounds lines
  have hlen : ∀ n : Int, (tailData ls n).length = clampLines n := by
    intro n
    unfold tailData
    rw [List.length_drop]
    have := clampLines_bounds n
    omega
  refine ⟨?_, ?_, ?_, ?_, rfl⟩
  · rw [hlen]; exact hb.1
  · rw [hlen]; exact hb.2
  · exact List.drop_suffix _ _
  · rw [hlen]
    rfl

/-- Claim C9 (witness): the clamp evaluated on a concrete 800-line log with a
request for 10 lines. -/
theorem tail_log_clamp_witness :
    50 ≤ (tailData (List.replicate 800 ([] : List Char)) 10).length ∧
    (tailData (List.replicate 800 ([] : List Char)) 10).length ≤ 800 ∧
    (tailData (List.replicate 800 ([] : List Char)) 10) <:+ List.replicate 800 [] ∧
    (tailData (List.replicate 800 ([] : List Char)) 10).length = 50 ∧
    tail_log none 10 = "No logs.".toList :=
  tail_log_clamp (List.replicate 800 []) 10 (by rw [List.length_replicate])

/-! ## Run command resolution (bot.py 201-233) -/

/-- Directory facts `resolve_run_command` consults for one working directory:
whether `package.json` exists, parses, and declares a `start` script (the
whole guarded block, any exception falling through); which conventional
candidate files exist; and the bounded sorted scan produced by
`list_files_safe`. -/
structure Dir where
  pkgHasStart : Bool
  hasCandidate : List Char → Bool
  scanFiles : List (List Char)

/-- A directory with no package manifest, no candidate files and an empty
scan. -/
def emptyDir : Dir :=
  { pkgHasStart := false, hasCandidate := fun _ => false, scanFiles := [] }

/-- Embeds `path_rel.split(".")[-1].lower()`: the segment after the last dot
(the whole string when no dot occurs), lowercased. -/
def extOf (p : List Char) : List Char :=
  ((p.reverse.takeWhile (fun c => c ≠ '.')).reverse).map Char.toLower

/-- Embeds `path_rel.endswith(suffix)`. -/
def endsWith (suffix p : List Char) : Bool := decide (suffix <:+ p)

/-- Embeds `by_ext` (bot.py 213-219): dispatch on the extension, with the
python interpreter as the unconditional fallback. -/
def by_ext (p : List Char) : List (List Char) :=
  if extOf p = "js".toList then ["node".toList, p]
  else if extOf p = "sh".toList then ["bash".toList, p]
  else ["python".toList, "-u".toList, p]

/-- Embeds the Python truthiness test `if script_rel:` on a `str | None`
value: false for `None` and for the empty string. -/
def givenEntry : Option (List Char) → Bool
  | none => false
  | some s => !s.isEmpty

/-- The fixed candidate list of bot.py line 224. -/
def candidateFiles : List (List Char) :=
  ["main.py".toList, "app.py".toList, "server.py".toList, "bot.py".toList,
   "index.js".toList, "server.js".toList, "start.sh".toList]

/-- Embeds `f.endswith((".py", ".js", ".sh"))` (bot.py 230). -/
def runnableExt (f : List Char) : Bool :=
  endsWith ".py".toList f || endsWith ".js".toList f || endsWith ".sh".toList f

/-- Embeds `resolve_run_command` (bot.py 201-233).  The result is `none` for
the `(None, None)` outcome, otherwise the command argv paired with the chosen
entry (`none` for the npm start command, which returns `None` as the chosen
entry). -/
def resolve_run_command (d : Dir) (script_rel : Option (List Char)) :
    Option (List (List Char) × Option (List Char)) :=
  if d.pkgHasStart && (script_rel.isNone || endsWith ".js".toList (script_rel.getD [])) then
    some ([ "npm".toList, "start".toList ], none)
  else if givenEntry script_rel then
    some (by_ext (script_rel.getD []), script_rel)
  else
    match candidateFiles.find? d.hasCandidate with
    | some c => some (by_ext c, some c)
    | none =>
      match d.scanFiles.find? runnableExt with
      | some f => some (by_ext f, some f)
      | none => none

theorem endsWith_js_ext (s : List Char) (h : endsWith ".js".toList s = true) :
    extOf s = "js".toList := by
  unfold endsWith at h
  rw [decide_eq_true_eq] at h
  obtain ⟨t, rfl⟩ := h
  unfold extOf
  have : (t ++ ".js".toList).reverse = 's' :: 'j' :: '.' :: t.reverse := by
    simp [List.reverse_append]
  rw [this]
  rw [List.takeWhile_cons_of_pos (by decide), List.takeWhile_cons_of_pos (by decide),
    List.takeWhile_cons_of_neg (by decide)]
  rfl

/-- Claim C10 (counterexample): called with the non-absent explicit entry `""`
over a directory with no manifest, no candidates and an empty scan, the code
returns the absent outcome, because the dispatch guard uses Python truthiness
and treats the empty string like no entry. -/
theorem resolve_empty_entry_cex :
    resolve_run_command emptyDir (some []) = none := rfl

/-- Claim C10 (amended): for a non-EMPTY explicit entry (the code guard
`if script_rel:` treats the empty string like an absent one), the result is
never absent, and an entry whose extension is neither js nor sh is dispatched
to the python interpreter invocation regardless of the directory contents;
with no explicit entry, an absent result forces the manifest branch, the
candidate probe and the extension scan all to have failed. -/
theorem resolve_given_entry (d : Dir) (s : List Char) (hs : s ≠ []) :
    (resolve_run_command d (some s)).isSome = true ∧
    (extOf s ≠ "js".toList → extOf s ≠ "sh".toList →
      resolve_run_command d (some s)
        = some (["python".toList, "-u".toList, s], some s)) ∧
    (resolve_run_command d none = none →
      d.pkgHasStart = false ∧ candidateFiles.find? d.hasCandidate = none ∧
        d.scanFiles.find? runnableExt = none) := by
  have hgiven : givenEntry (some s) = true := by
    unfold givenEntry
    rw [Bool.not_eq_true']
    exact List.isEmpty_eq_false.mpr hs
  refine ⟨?_, ?_, ?_⟩
  · unfold resolve_run_command
    by_cases hg : d.pkgHasStart && ((some s).isNone || endsWith ".js".toList ((some s).getD []))
    · rw [if_pos hg]
      rfl
    · rw [if_neg hg, if_pos hgiven]
      rfl
  · intro hjs hsh
    have hends : endsWith ".js".toList s = false := by
      cases he : endsWith ".js".toList s
      · rfl
      · exact absurd (endsWith_js_ext s he) hjs
    have hcond : (d.pkgHasStart
        && ((some s).isNone || endsWith ".js".toList ((some s).getD []))) = false := by
      show (d.pkgHasStart && (false || endsWith ".js".toList s)) = false
      rw [Bool.false_or, hends, Bool.and_false]
    unfold resolve_run_command
    rw [if_neg (by rw [hcond]; decide), if_pos hgiven]
    show some (by_ext s, some s) = _
    unfold by_ext
    rw [if_neg hjs, if_neg hsh]
  · intro habs
    unfold resolve_run_command at habs
    by_cases hp : d.pkgHasStart
    · rw [if_pos (by simp [hp])] at habs
      exact absurd habs (by simp)
    · refine ⟨by simpa using hp, ?_, ?_⟩
      · rw [if_neg (by simp [hp]), if_neg (by decide)] at habs
        cases hc : candidateFiles.find? d.hasCandidate
        · rfl
        · rw [hc] at habs
          exact absurd habs (by simp)
      · rw [if_neg (by simp [hp]), if_neg (by decide)] at habs
        cases hc : candidateFiles.find? d.hasCandidate
        · rw [hc] at habs
          cases hf : d.scanFiles.find? runnableExt
          · rfl
          · rw [hf] at habs
            exact absurd habs (by simp)
        · rw [hc] at habs
          exact absurd habs (by simp)

/-- Claim C10 (witness for the amended theorem): a concrete `.txt` entry over
the empty directory resolves to the python invocation. -/
theorem resolve_given_entry_witness :
    resolve_run_command emptyDir (some "x.txt".toList)
      = some (["python".toList, "-u".toList, "x.txt".toList], some "x.txt".toList) :=
  (resolve_given_entry emptyDir "x.txt".toList (by decide)).2.1 (by decide) (by decide)

/-! ## Lifecycle controller (bot.py 249-299) -/

/-- Characters after the first pipe: `tid.split("|", 1)[1]`. -/
def afterPipe (tid : List Char) : List Char :=
  (tid.dropWhile (fun c => c ≠ '|')).drop 1

/-- The `script_path` component of `resolve_paths` (bot.py 146-173) as used
by `restart_process_background` for non-repo targets: the filename after the
pipe for a user-file identifier, the identifier itself for a legacy one. -/
def scriptPathOf (tid : List Char) : List Char :=
  if is_user_file_id tid then afterPipe tid else tid

/-- The explicit entry `restart_process_background` hands to
`resolve_run_command` (bot.py 259-263): the stored ownership entry for a repo
identifier, the resolved script path otherwise. -/
def restartScriptRel (own : OwnStore) (tid : List Char) : Option (List Char) :=
  if is_repo_id tid then get_entry own tid else some (scriptPathOf tid)

/-- Embeds `restart_process_background` (bot.py 249-290) as its effect on the
ownership store and the process registry.  The previous process group is
killed with errors swallowed (no registry change).  If no command resolves,
the function logs and returns with nothing changed.  Otherwise, for a repo
identifier the chosen entry is persisted; `spawnRaises` is the oracle for an
exception at the spawn step (after entry persistence, before registry
update), which propagates to the caller; on success the registry entry is
replaced with a fresh one whose last-alert time is zero, and the
desired-running flag is set.  The third component reports whether an
exception propagated. -/
def restart_process_background (d : Dir) (spawnRaises : Bool) (own : OwnStore)
    (reg : Registry) (tid : List Char) (now : Nat) : OwnStore × Registry × Bool :=
  match resolve_run_command d (restartScriptRel own tid) with
  | none => (own, reg, false)
  | some (_, chosen) =>
    let own1 := if is_repo_id tid then set_entry_store own tid chosen else own
    if spawnRaises then (own1, reg, true)
    else (set_last_run own1 tid true,
      mapUpdate reg tid (some { lastAlert := 0, startedAt := now }), false)

/-- Claim C7: when no runnable command resolves for the target,
`restart_process_background` returns normally (no exception), creates no
registry entry, and leaves the ownership store — in particular the
desired-running flag — untouched. -/
theorem restart_no_cmd_noop (d : Dir) (sp : Bool) (own : OwnStore) (reg : Registry)
    (tid : List Char) (now : Nat)
    (h : resolve_run_command d (restartScriptRel own tid) = none) :
    restart_process_background d sp own reg tid now = (own, reg, false) := by
  unfold restart_process_background
  rw [h]

/-- Claim C7 (witness): a repo identifier with no stored entry over an empty
directory resolves no command, and the restart leaves the empty state
unchanged and raises nothing. -/
theorem restart_no_cmd_noop_witness :
    restart_process_background emptyDir false [] (fun _ => none) "r|f".toList 0
      = ([], fun _ => none, false) :=
  restart_no_cmd_noop emptyDir false [] (fun _ => none) "r|f".toList 0 rfl

/-- Embeds `stop_process` (bot.py 292-299) as its effect on the ownership
store and the registry: kill the process group and remove the registry entry
when one exists (signal errors swallowed), then clear the desired-running
flag.  The third component reports whether a termination signal was
attempted. -/
def stop_process (own : OwnStore) (reg : Registry) (tid : List Char) :
    OwnStore × Registry × Bool :=
  if (reg tid).isSome then
    (set_last_run own tid false, mapUpdate reg tid none, true)
  else
    (set_last_run own tid false, reg, false)

/-- Claim C8: after `stop_process` the registry has no entry for the target;
if an ownership record exists its desired-running flag is false whatever it
was before; stopping a target with no registry entry attempts no termination
and changes nothing but the flag; and a second stop is a no-op that again
attempts no termination. -/
theorem stop_clears_desired (own : OwnStore) (reg : Registry) (tid : List Char) :
    ((stop_process own reg tid).2.1 tid = none) ∧
    (∀ r, lookupOwn own tid = some r →
      lookupOwn (stop_process own reg tid).1 tid = some (setLastRunRec false r)) ∧
    (reg tid = none →
      (stop_process own reg tid).2.2 = false ∧ (stop_process own reg tid).2.1 = reg) ∧
    (stop_process (stop_process own reg tid).1 (stop_process own reg tid).2.1 tid
      = ((stop_process own reg tid).1, (stop_process own reg tid).2.1, false)) := by
  have hlast : ∀ o : OwnStore, lookupOwn o tid = none → set_last_run o tid false = o := by
    intro o ho
    unfold set_last_run
    rw [ho]
    rfl
  have hreg1 : (stop_process own reg tid).2.1 tid = none := by
    unfold stop_process
    by_cases h : (reg tid).isSome
    · rw [if_pos h]
      simp [mapUpdate]
    · rw [if_neg h]
      exact Option.not_isSome_iff_eq_none.mp h
  have hidem : set_last_run (set_last_run own tid false) tid false
      = set_last_run own tid false := by
    unfold set_last_run
    by_cases h : (lookupOwn own tid).isSome
    · rw [if_pos h]
      have h2 : (lookupOwn (own.map
          (fun p => if p.1 = tid then (p.1, setLastRunRec false p.2) else p)) tid).isSome := by
        rw [lookup_map_modify]
        cases hl : lookupOwn own tid
        · rw [hl] at h
          simp at h
        · rfl
      rw [if_pos h2, List.map_map]
      congr 1
      funext p
      by_cases hp : p.1 = tid
      · simp [hp, setLastRunRec]
      · simp [hp]
    · rw [if_neg h, if_neg h]
  refine ⟨hreg1, ?_, ?_, ?_⟩
  · intro r hr
    unfold stop_process
    by_cases h : (reg tid).isSome
    · rw [if_pos h]
      show lookupOwn (set_last_run own tid false) tid = _
      rw [lookup_set_last_run, hr]
      rfl
    · rw [if_neg h]
      show lookupOwn (set_last_run own tid false) tid = _
      rw [lookup_set_last_run, hr]
      rfl
  · intro h
    have h2 : ¬ (reg tid).isSome = true := by
      rw [h]
      decide
    unfold stop_process
    rw [if_neg h2]
    exact ⟨rfl, rfl⟩
  · have h3 : (stop_process own reg tid).1 = set_last_run own tid false := by
      unfold stop_process
      by_cases h : (reg tid).isSome
      · rw [if_pos h]
      · rw [if_neg h]
    generalize hA : (stop_process own reg tid).1 = A at h3 ⊢
    generalize hB : (stop_process own reg tid).2.1 = B at hreg1 ⊢
    have hBn : ¬ (B tid).isSome = true := by
      rw [hreg1]
      decide
    unfold stop_process
    rw [if_neg hBn, h3, hidem]

/-- A concrete one-record store used by the stop witness: the target is
recorded with desired-running true and has a live registry entry. -/
def w8Own : OwnStore :=
  [("app".toList, { owner := some 7, key := none, entry := none, last_run := some true })]

/-- The registry used by the stop witness. -/
def w8Reg : Registry :=
  mapUpdate (fun _ => none) "app".toList (some { lastAlert := 0, startedAt := 0 })

/-- Claim C8 (witness): stopping the concrete running target clears its
registry entry and flips its desired-running flag to false. -/
theorem stop_clears_desired_witness :
    ((stop_process w8Own w8Reg "app".toList).2.1 "app".toList = none) ∧
    lookupOwn (stop_process w8Own w8Reg "app".toList).1 "app".toList
      = some (setLastRunRec false
          { owner := some 7, key := none, entry := none, last_run := some true }) :=
  ⟨(stop_clears_desired w8Own w8Reg "app".toList).1,
   (stop_clears_desired w8Own w8Reg "app".toList).2.1
     { owner := some 7, key := none, entry := none, last_run := some true } (by decide)⟩

/-! ## Watchdog (bot.py 53-57, 463-521) -/

/-- Default alert cooldown in seconds (bot.py 55). -/
def ALERT_COOLDOWN_SEC : Nat := 180

/-- Default CPU alert threshold in percent (bot.py 56), sampled values
modelled as naturals. -/
def CPU_ALERT_PERCENT : Nat := 85

/-- Default RAM alert threshold in MB (bot.py 57), sampled values modelled as
naturals. -/
def RAM_ALERT_MB : Nat := 350

/-- The oracle inputs of one watchdog tick: the current time, per-target
liveness of the registered handle (`poll() is not None`), the working
directory contents seen by a restart, whether the spawn step of a restart
raises, the sampled CPU and RAM values, and whether resource sampling
raises. -/
structure TickEnv where
  now : Nat
  pExited : List Char → Bool
  dirFor : List Char → Dir
  restartRaises : List Char → Bool
  cpu : List Char → Nat
  ram : List Char → Nat
  sampleRaises : List Char → Bool

/-- The externally visible notifications and actions of one tick.  A
`downAlert` stands for the pair of down-notification messages to the admin
and the owner, a `resourceAlert` for the resource-usage pair, and a
`restartAttempt` for one invocation of `restart_process_background`. -/
inductive WEvent
  | downAlert (tid : List Char)
  | resourceAlert (tid : List Char)
  | restartAttempt (tid : List Char)
deriving DecidableEq

/-- Embeds `_can_alert` (bot.py 463-466): a missing registry entry
contributes a last-alert time of zero.  `time.time() - last >= COOLDOWN`
becomes truncated subtraction, which agrees with the Python comparison for
all reachable (past) stamps. -/
def can_alert (reg : Registry) (tid : List Char) (now : Nat) : Bool :=
  ALERT_COOLDOWN_SEC ≤ now - (((reg tid).map (·.lastAlert)).getD 0)

/-- Embeds `_mark_alerted` (bot.py 468-470): stamp the last-alert time only
when a registry entry exists. -/
def mark_alerted (reg : Registry) (tid : List Char) (now : Nat) : Registry :=
  match reg tid with
  | some m => mapUpdate reg tid (some { m with lastAlert := now })
  | none => reg

/-- The body of the watchdog loop for one watched identifier (bot.py
479-521): when the target is not detected alive, send the down pair if the
cooldown has elapsed and stamp the time, then always attempt a restart with
exceptions caught; when alive, sample resources (errors skipping the
target), and send the resource pair under the same cooldown. -/
def watchdog_target (env : TickEnv) (own : OwnStore) (reg : Registry) (tid : List Char) :
    List WEvent × OwnStore × Registry :=
  if aliveIn reg env.pExited tid then
    if env.sampleRaises tid then ([], own, reg)
    else if (decide (CPU_ALERT_PERCENT ≤ env.cpu tid)
        || decide (RAM_ALERT_MB ≤ env.ram tid)) && can_alert reg tid env.now then
      ([WEvent.resourceAlert tid], own, mark_alerted reg tid env.now)
    else ([], own, reg)
  else
    let ca := can_alert reg tid env.now
    let reg1 := if ca then mark_alerted reg tid env.now else reg
    let res := restart_process_background (env.dirFor tid) (env.restartRaises tid)
      own reg1 tid env.now
    ((if ca then [WEvent.downAlert tid] else []) ++ [WEvent.restartAttempt tid],
      res.1, res.2.1)

/-- Embeds the watch-list build (bot.py 476-477): identifiers whose record
has `last_run is True`, in store order. -/
def watchList (own : OwnStore) : List (List Char) :=
  (own.filter (fun p => p.2.last_run = some true)).map (·.1)

/-- One fold step of the tick: run the body and accumulate its events. -/
def watchdog_step (env : TickEnv) (acc : List WEvent × OwnStore × Registry)
    (tid : List Char) : List WEvent × OwnStore × Registry :=
  let r := watchdog_target env acc.2.1 acc.2.2 tid
  (acc.1 ++ r.1, r.2.1, r.2.2)

/-- Embeds `watchdog_check` (bot.py 472-521): nothing happens with alerts
disabled; otherwise the watch-list is computed from the ownership snapshot
once and the body runs for each watched identifier in order, threading the
store and the registry. -/
def watchdog_check (enabled : Bool) (env : TickEnv) (own : OwnStore) (reg : Registry) :
    List WEvent × OwnStore × Registry :=
  if enabled then (watchList own).foldl (watchdog_step env) ([], own, reg)
  else ([], own, reg)

/-- Recognizer for restart attempts. -/
def isRestartEv : WEvent → Bool
  | .restartAttempt _ => true
  | _ => false

/-- Recognizer for down-notifications. -/
def isDownAlert : WEvent → Bool
  | .downAlert _ => true
  | _ => false

theorem mapUpdate_ne {β : Type} (f : List Char → Option β) (k q : List Char)
    (v : Option β) (h : q ≠ k) : mapUpdate f k v q = f q := by
  unfold mapUpdate
  rw [if_neg h]

theorem mark_alerted_ne (reg : Registry) (tid q : List Char) (now : Nat) (h : q ≠ tid) :
    mark_alerted reg tid now q = reg q := by
  unfold mark_alerted
  cases reg tid
  · rfl
  · exact mapUpdate_ne reg tid q _ h

theorem restart_reg_ne (d : Dir) (sp : Bool) (own : OwnStore) (reg : Registry)
    (tid q : List Char) (now : Nat) (h : q ≠ tid) :
    (restart_process_background d sp own reg tid now).2.1 q = reg q := by
  unfold restart_process_background
  cases resolve_run_command d (restartScriptRel own tid) with
  | none => rfl
  | some pr =>
    cases sp
    · exact mapUpdate_ne reg tid q _ h
    · rfl

theorem watchdog_target_reg_ne (env : TickEnv) (own : OwnStore) (reg : Registry)
    (tid q : List Char) (h : q ≠ tid) :
    (watchdog_target env own reg tid).2.2 q = reg q := by
  unfold watchdog_target
  by_cases ha : aliveIn reg env.pExited tid
  · rw [if_pos ha]
    by_cases hs : env.sampleRaises tid
    · rw [if_pos hs]
    · rw [if_neg hs]
      by_cases hr : (decide (CPU_ALERT_PERCENT ≤ env.cpu tid)
          || decide (RAM_ALERT_MB ≤ env.ram tid)) && can_alert reg tid env.now
      · rw [if_pos hr]
        exact mark_alerted_ne reg tid q env.now h
      · rw [if_neg hr]
  · rw [if_neg ha]
    show (restart_process_background (env.dirFor tid) (env.restartRaises tid) own
      (if can_alert reg tid env.now then mark_alerted reg tid env.now else reg)
      tid env.now).2.1 q = reg q
    rw [restart_reg_ne _ _ _ _ _ _ _ h]
    by_cases hc : can_alert reg tid env.now
    · rw [if_pos hc]
      exact mark_alerted_ne reg tid q env.now h
    · rw [if_neg hc]

theorem aliveIn_congr (reg0 reg : Registry) (pe : List Char → Bool) (tid : List Char)
    (h : reg0 tid = reg tid) : aliveIn reg0 pe tid = aliveIn reg pe tid := by
  unfold aliveIn
  rw [h]

theorem watchdog_target_restart_events (env : TickEnv) (own : OwnStore) (reg : Registry)
    (tid : List Char) :
    (watchdog_target env own reg tid).1.filter isRestartEv
      = if aliveIn reg env.pExited tid then [] else [WEvent.restartAttempt tid] := by
  unfold watchdog_target
  by_cases ha : aliveIn reg env.pExited tid
  · rw [if_pos ha, if_pos ha]
    by_cases hs : env.sampleRaises tid
    · rw [if_pos hs]
      rfl
    · rw [if_neg hs]
      by_cases hr : (decide (CPU_ALERT_PERCENT ≤ env.cpu tid)
          || decide (RAM_ALERT_MB ≤ env.ram tid)) && can_alert reg tid env.now
      · rw [if_pos hr]
        rfl
      · rw [if_neg hr]
        rfl
  · rw [if_neg ha, if_neg ha]
    show ((if can_alert reg tid env.now then [WEvent.downAlert tid] else [])
      ++ [WEvent.restartAttempt tid]).filter isRestartEv = _
    rw [List.filter_append]
    by_cases hc : can_alert reg tid env.now
    · rw [if_pos hc]
      rfl
    · rw [if_neg hc]
      rfl

theorem fold_restart_events (env : TickEnv) (l : List (List Char)) :
    ∀ (evs : List WEvent) (own : OwnStore) (reg0 reg : Registry),
      l.Nodup → (∀ t ∈ l, reg0 t = reg t) →
      (l.foldl (watchdog_step env) (evs, own, reg0)).1.filter isRestartEv
        = evs.filter isRestartEv
          ++ (l.filter (fun tid => !(aliveIn reg env.pExited tid))).map
              WEvent.restartAttempt := by
  induction l with
  | nil =>
    intro evs own reg0 reg _ _
    simp
  | cons t l ih =>
    intro evs own reg0 reg hnd hagree
    have hnotmem : t ∉ l := (List.nodup_cons.mp hnd).1
    have hndl : l.Nodup := (List.nodup_cons.mp hnd).2
    have hstep : l.foldl (watchdog_step env) (watchdog_step env (evs, own, reg0) t)
        = l.foldl (watchdog_step env) (watchdog_step env (evs, own, reg0) t) := rfl
    show (l.foldl (watchdog_step env) (watchdog_step env (evs, own, reg0) t)).1.filter
        isRestartEv = _
    have hagree_t : reg0 t = reg t := hagree t (List.mem_cons_self t l)
    have hagree_l : ∀ t' ∈ l, (watchdog_target env own reg0 t).2.2 t' = reg t' := by
      intro t' ht'
      have hne : t' ≠ t := fun he => hnotmem (he ▸ ht')
      rw [watchdog_target_reg_ne env own reg0 t t' hne]
      exact hagree t' (List.mem_cons_of_mem t ht')
    have hrec := ih (evs ++ (watchdog_target env own reg0 t).1)
      (watchdog_target env own reg0 t).2.1 (watchdog_target env own reg0 t).2.2 reg
      hndl hagree_l
    have hunfold : watchdog_step env (evs, own, reg0) t
        = (evs ++ (watchdog_target env own reg0 t).1,
            (watchdog_target env own reg0 t).2.1, (watchdog_target env own reg0 t).2.2) := rfl
    rw [hunfold, hrec, List.filter_append, watchdog_target_restart_events,
      aliveIn_congr reg0 reg env.pExited t hagree_t]
    by_cases ha : aliveIn reg env.pExited t
    · rw [if_pos ha]
      have hf : List.filter (fun tid => !(aliveIn reg env.pExited tid)) (t :: l)
          = List.filter (fun tid => !(aliveIn reg env.pExited tid)) l := by
        rw [List.filter_cons]
        rw [if_neg (by simp [ha])]
      rw [hf, List.append_nil]
    · rw [if_neg ha]
      have hf : List.filter (fun tid => !(aliveIn reg env.pExited tid)) (t :: l)
          = t :: List.filter (fun tid => !(aliveIn reg env.pExited tid)) l := by
        rw [List.filter_cons]
        rw [if_pos (by simp [ha])]
      rw [hf, List.map_cons, List.append_assoc]
      rfl

/-- Claim C4: in a tick with alerts enabled over a store with distinct keys
(the JSON dictionary invariant), the restart attempts are exactly one per
watched target not detected alive, in watch-list order — independent of the
cooldown state (any last-alert stamps), of whether notifications were
suppressed, and of whether any restart raises (the `restartRaises` oracle is
arbitrary, so one failing restart never prevents the others). -/
theorem watchdog_restart_each_dead (env : TickEnv) (own : OwnStore) (reg : Registry)
    (hnd : (own.map (·.1)).Nodup) :
    (watchdog_check true env own reg).1.filter isRestartEv
      = ((watchList own).filter (fun tid => !(aliveIn reg env.pExited tid))).map
          WEvent.restartAttempt := by
  have hwl : (watchList own).Nodup := by
    unfold watchList
    have hsub : List.Sublist ((own.filter (fun p => p.2.last_run = some true)).map (·.1))
        (own.map (·.1)) :=
      (List.filter_sublist own).map (·.1)
    exact hnd.sublist hsub
  unfold watchdog_check
  rw [if_pos rfl]
  have := fold_restart_events env (watchList own) [] own reg reg hwl (fun _ _ => rfl)
  rw [this]
  rfl

/-- Concrete two-target store for the C4 witness: one dead watched target,
one unwatched. -/
def w4Own : OwnStore :=
  [("a".toList, { owner := some 1, key := none, entry := none, last_run := some true }),
   ("b".toList, { owner := some 2, key := none, entry := none, last_run := some false })]

/-- Concrete tick oracle for the C4 witness. -/
def w4Env : TickEnv :=
  { now := 1000, pExited := fun _ => true, dirFor := fun _ => emptyDir,
    restartRaises := fun _ => true, cpu := fun _ => 0, ram := fun _ => 0,
    sampleRaises := fun _ => false }

/-- Claim C4 (witness): on the concrete store the dead watched target gets
exactly one restart attempt even though its restart raises. -/
theorem watchdog_restart_each_dead_witness :
    (watchdog_check true w4Env w4Own (fun _ => none)).1.filter isRestartEv
      = ((watchList w4Own).filter
          (fun tid => !(aliveIn (fun _ => none) w4Env.pExited tid))).map
          WEvent.restartAttempt :=
  watchdog_restart_each_dead w4Env w4Own (fun _ => none) (by decide)

/-! ## Two consecutive ticks for one failing target (claim C1) -/

/-- The failing target of the two-tick run: a legacy identifier. -/
def c1Tid : List Char := "app".toList

/-- Ownership for the two-tick run: the target is watched
(desired-running true). -/
def c1Own : OwnStore :=
  [(c1Tid, { owner := some 7, key := none, entry := none, last_run := some true })]

/-- Initial registry: the target has an entry whose last-alert stamp is far
in the past (zero), so the first tick is allowed to alert. -/
def c1Reg : Registry :=
  mapUpdate (fun _ => none) c1Tid (some { lastAlert := 0, startedAt := 0 })

/-- Oracle for a tick at time `t` in which the process of every target is
found dead, every restart resolves a command (a legacy identifier always
dispatches through `by_ext`) and spawns without raising. -/
def c1Env (t : Nat) : TickEnv :=
  { now := t, pExited := fun _ => true, dirFor := fun _ => emptyDir,
    restartRaises := fun _ => false, cpu := fun _ => 0, ram := fun _ => 0,
    sampleRaises := fun _ => false }

/-- First tick at t = 1000. -/
def c1Tick1 : List WEvent × OwnStore × Registry :=
  watchdog_check true (c1Env 1000) c1Own c1Reg

/-- Second tick at t = 1020, twenty seconds later, over the state the first
tick left behind. -/
def c1Tick2 : List WEvent × OwnStore × Registry :=
  watchdog_check true (c1Env 1020) c1Tick1.2.1 c1Tick1.2.2

/-- Claim C1 (code bug): the two consecutive ticks lie well inside one
cooldown window (20 s apart against a 180 s cooldown) and the target fails
on both, yet each tick sends a down-notification — two in total, where the
claim and the spec require exactly one.  The first tick does stamp the
last-alert time, but the restart that follows re-registers the target with
a zero last-alert stamp (bot.py 289), wiping the stamp, so the second
tick's cooldown check passes again. -/
theorem watchdog_double_alert_bug :
    1020 - 1000 < ALERT_COOLDOWN_SEC ∧
    c1Tick1.1.filter isDownAlert = [WEvent.downAlert c1Tid] ∧
    c1Tick2.1.filter isDownAlert = [WEvent.downAlert c1Tid] ∧
    ((c1Tick1.2.2 c1Tid).map (·.lastAlert) = some 0) := by
  refine ⟨by decide, by decide, by decide, by decide⟩

end Genn
